import Mathlib

/-!
Shallow embedding of the juice product-mix optimization notebook
(`Juice_Product_Mix_Optimization.ipynb`): a PuLP integer program built from a
product table, solved, extracted into a result dict, then re-solved after
mutating the machine-time constraint's right-hand side.

All numeric data in the worked instance is integral, and every decision
variable is declared `cat='Integer'`, so the embedding uses `Int` throughout
(the solver's float representation of integral values is out of scope here).
-/

/-- One row of the product table `data` (indexed by `Product`), with columns
`Profit`, `MachineTime`, `LaborTime`, `MaxUnits`. -/
structure ProductRecord where
  name : String
  profit : Int
  machineTime : Int
  laborTime : Int
  maxUnits : Int
deriving Repr, DecidableEq

/-- The product table: an ordered collection of product records. -/
abbrev Catalog := List ProductRecord

/-- An `LpVariable` as created in the notebook: a (sanitized) name, bounds
`lowBound=0, upBound=MaxUnits`, and `cat='Integer'`. -/
structure DecisionVariable where
  name : String
  lowBound : Int
  upBound : Int
  isInteger : Bool
deriving Repr, DecidableEq

/-- A named linear inequality `Σ coeff·var ≤ rhs`, the coefficients keyed by
product identity (the key of `juice_vars`). -/
structure Constraint where
  coeffs : List (String × Int)
  rhs : Int
deriving Repr, DecidableEq

/-- The `LpProblem` after the variable, objective and constraint cells ran:
decision variables keyed by product identity, the maximize objective as
profit coefficients keyed by product identity, and the name-keyed
constraint mapping. -/
structure Model where
  vars : List (String × DecisionVariable)
  objective : List (String × Int)
  constraints : List (String × Constraint)
deriving Repr, DecidableEq

/-- `product.replace(' ', '_')`: the variable-name sanitization applied when
creating each `LpVariable`. -/
def sanitize (s : String) : String :=
  String.mk (s.data.map (fun c => if c = ' ' then '_' else c))

/-- The model-construction cells of the notebook
(`juice_vars = {product: LpVariable(product.replace(' ', '_'), lowBound=0,
upBound=data.loc[product,'MaxUnits'], cat='Integer') for product in data.index}`,
`model += sum(Profit·var)`, and the two `<=` constraints named
`"Machine_Time"` and `"Labor_Time"`), parameterized by the two budget
scalars as in the spec's `build(catalog, machineBudget, laborBudget)`.
The notebook performs no input validation: this function is total. It embeds
the cells faithfully for every non-empty catalog, where each `sum(...)` is an
`LpAffineExpression` and each comparison an `LpConstraint`; for the empty
catalog the constraint cells degenerate to Python bools and `buildCells`
below is the faithful entry point. -/
def build (catalog : Catalog) (machineBudget laborBudget : Int) : Model :=
  { vars := catalog.map (fun p =>
      (p.name, { name := sanitize p.name, lowBound := 0, upBound := p.maxUnits,
                 isInteger := true }))
    objective := catalog.map (fun p => (p.name, p.profit))
    constraints :=
      [("Machine_Time",
        { coeffs := catalog.map (fun p => (p.name, p.machineTime)),
          rhs := machineBudget }),
       ("Labor_Time",
        { coeffs := catalog.map (fun p => (p.name, p.laborTime)),
          rhs := laborBudget })] }

/-- Outcome of running the model-definition cells: a Model, or the
`TypeError("A False object cannot be passed as a constraint")` that PuLP's
`LpProblem.__iadd__` raises when handed the bool `False`. -/
inductive BuildOutcome where
  | model (m : Model)
  | typeError
deriving Repr, DecidableEq

/-- The model-definition cells including the empty-catalog edge. On a
non-empty catalog they behave as `build`. On an empty catalog `sum(...)` is
the plain int `0`, so the objective cell sets the constant-0 objective and
each constraint cell hands `LpProblem.__iadd__` the Python bool
`0 <= budget`: a `True` bool is silently discarded (no constraint is ever
created), a `False` one (negative budget, the machine cell running first)
raises the TypeError — never a ValidationError. -/
def buildCells (catalog : Catalog) (machineBudget laborBudget : Int) :
    BuildOutcome :=
  if catalog = [] then
    if 0 ≤ machineBudget then
      if 0 ≤ laborBudget then
        BuildOutcome.model { vars := [], objective := [], constraints := [] }
      else BuildOutcome.typeError
    else BuildOutcome.typeError
  else BuildOutcome.model (build catalog machineBudget laborBudget)

/-- PuLP's `LpConstraint.changeRHS`: overwrite the right-hand-side scalar,
leaving the left-hand linear expression untouched. -/
def changeRHS (c : Constraint) (newRhs : Int) : Constraint :=
  { c with rhs := newRhs }

/-- `model.constraints[constraintName].changeRHS(newRhs)`: look the name up in
the constraint dict and overwrite that constraint's RHS. `none` models the
`KeyError` Python raises on an absent key (the model is then untouched). -/
def setConstraintBound (m : Model) (name : String) (newRhs : Int) :
    Option Model :=
  if name ∈ m.constraints.map Prod.fst then
    some { m with
           constraints := m.constraints.map (fun kv =>
             if kv.1 = name then (kv.1, changeRHS kv.2 newRhs) else kv) }
  else none

/-- Value of a linear expression with coefficients keyed by product identity,
under an integer assignment to the products. -/
def evalExpr (coeffs : List (String × Int)) (x : String → Int) : Int :=
  (coeffs.map (fun kv => kv.2 * x kv.1)).sum

/-- The objective value of an assignment. -/
def objValue (m : Model) (x : String → Int) : Int :=
  evalExpr m.objective x

/-- An integer assignment is feasible for a model when it respects every
decision variable's bounds and every constraint's inequality. -/
def feasible (m : Model) (x : String → Int) : Prop :=
  (∀ kv ∈ m.vars, kv.2.lowBound ≤ x kv.1 ∧ x kv.1 ≤ kv.2.upBound) ∧
  (∀ kv ∈ m.constraints, evalExpr kv.2.coeffs x ≤ kv.2.rhs)

instance (m : Model) (x : String → Int) : Decidable (feasible m x) := by
  unfold feasible; exact inferInstance

/-- Python dict assignment `d[k] = v`: overwrite in place when the key is
present (keeping its position), append otherwise. -/
def pyDictInsert (d : List (String × Int)) (k : String) (v : Int) :
    List (String × Int) :=
  if k ∈ d.map Prod.fst then
    d.map (fun kv => if kv.1 = k then (kv.1, v) else kv)
  else d ++ [(k, v)]

/-- A Python dict comprehension: successive dict assignments starting from
the empty dict. -/
def pyDictOf (l : List (String × Int)) : List (String × Int) :=
  l.foldl (fun d kv => pyDictInsert d kv.1 kv.2) []

/-- The extraction cell, as coded:
`results = {p: juice_vars[p].value() for p in data.index}` followed by
`results['Total Profit'] = value(model.objective)`. It does not consult the
solver status. -/
def extractResult (catalog : Catalog) (vals : String → Int) (obj : Int) :
    List (String × Int) :=
  pyDictInsert (pyDictOf (catalog.map (fun p => (p.name, vals p.name))))
    "Total Profit" obj

/-- The closed status set of spec §4.2 plus PuLP's `Not Solved`. -/
inductive SolverStatus where
  | Optimal
  | Infeasible
  | Unbounded
  | NotSolved
  | Error
deriving Repr, DecidableEq

/-- What one `model.solve()` call leaves behind: `model.status`, a value on
every decision variable (keyed by product identity), and
`value(model.objective)`. -/
structure SolverOutput where
  status : SolverStatus
  values : String → Int
  objective : Int

/-- Modelled from the spec: the Solver Adapter is an external collaborator
(spec §2 item 3, §4.2) whose algorithm is out of scope. Soundness half of its
contract: when it reports `Optimal`, the reported variable values are a
feasible assignment whose objective value is reported and is maximal. -/
def OptimalSound (m : Model) (out : SolverOutput) : Prop :=
  out.status = SolverStatus.Optimal →
    feasible m out.values ∧
    out.objective = objValue m out.values ∧
    ∀ x, feasible m x → objValue m x ≤ out.objective

/-- Modelled from the spec: completeness half of the Solver Adapter contract
(spec §4.2): on a model that has a feasible assignment and a bounded
objective, the solver terminates with status `Optimal`. -/
def OptimalComplete (m : Model) (out : SolverOutput) : Prop :=
  (∃ x, feasible m x) → (∃ B, ∀ x, feasible m x → objValue m x ≤ B) →
    out.status = SolverStatus.Optimal

/-- The notebook session state threaded through the solve, extraction and
sensitivity cells: the product table, the live model, the decision-variable
values the last solve wrote, and the two result dicts. -/
structure Session where
  data : Catalog
  model : Model
  varValues : String → Int
  results : Option (List (String × Int))
  sensitivity_results : Option (List (String × Int))

/-- The state after the model-definition cells: `data` loaded, the model
built against the two budget scalars, no solve run yet (variable values
default to 0; neither result dict exists). -/
def initSession (catalog : Catalog) (machineBudget laborBudget : Int) :
    Session :=
  { data := catalog
    model := build catalog machineBudget laborBudget
    varValues := fun _ => 0
    results := none
    sensitivity_results := none }

/-- The solve-and-extract cell: `model.solve()` overwrites every variable's
value, then `results` is built from those values and the objective. The
status is printed but never stored in `results`. -/
def runSolveCell (solve : Model → SolverOutput) (s : Session) : Session :=
  let out := solve s.model
  { s with
    varValues := out.values
    results := some (extractResult s.data out.values out.objective) }

/-- The sensitivity cell:
`model.constraints["Machine_Time"].changeRHS(newRhs)` followed by a re-solve
and a second extraction into `sensitivity_results` (the notebook passes
`max_machine_time + 20` for `newRhs`). If the lookup raised `KeyError` the
cell would abort before assigning `sensitivity_results`. -/
def sensitivityCell (solve : Model → SolverOutput) (newRhs : Int)
    (s : Session) : Session :=
  match setConstraintBound s.model "Machine_Time" newRhs with
  | none => s
  | some m' =>
    let out := solve m'
    { s with
      model := m'
      varValues := out.values
      sensitivity_results := some (extractResult s.data out.values out.objective) }

/-- `max_machine_time = 240`. -/
def max_machine_time : Int := 240

/-- `max_labor_time = 220`. -/
def max_labor_time : Int := 220

/-- The product table recorded in the notebook's data cell. -/
def juiceData : Catalog :=
  [{ name := "Apple Juice", profit := 25, machineTime := 3, laborTime := 2,
     maxUnits := 60 },
   { name := "Orange Juice", profit := 30, machineTime := 2, laborTime := 3,
     maxUnits := 60 },
   { name := "Mixed Fruit Juice", profit := 40, machineTime := 4, laborTime := 4,
     maxUnits := 60 }]

/-- The baseline model the notebook builds. -/
def juiceModel : Model := build juiceData max_machine_time max_labor_time

/-- The model after the sensitivity cell's RHS mutation (machine budget 260). -/
def juiceModel260 : Model := build juiceData 260 max_labor_time

/-- The optimal assignment of the baseline instance. -/
def xStar240 : String → Int := fun n =>
  if n = "Apple Juice" then 56 else if n = "Orange Juice" then 36 else 0

/-- The assignment the recorded re-solve at machine budget 260 reports. -/
def xStar260 : String → Int := fun n =>
  if n = "Apple Juice" then 60 else
  if n = "Orange Juice" then 32 else
  if n = "Mixed Fruit Juice" then 1 else 0

/-! ## Helper lemmas -/

/-- Evaluating a linear expression whose coefficient list is mapped from a
catalog is the corresponding profit/resource-weighted sum over the catalog. -/
lemma evalExpr_map_catalog (catalog : Catalog) (coef : ProductRecord → Int)
    (x : String → Int) :
    evalExpr (catalog.map (fun p => (p.name, coef p))) x =
      (catalog.map (fun p => coef p * x p.name)).sum := by
  induction catalog with
  | nil => simp [evalExpr]
  | cons p t ih => simp [evalExpr] at ih ⊢; rw [ih]

lemma build_vars_len (catalog : Catalog) (mb lb : Int) :
    (build catalog mb lb).vars.length = catalog.length := by
  simp [build]

lemma build_vars_mem (catalog : Catalog) (mb lb : Int) :
    ∀ p ∈ catalog,
      (p.name,
        ({ name := sanitize p.name, lowBound := 0, upBound := p.maxUnits,
           isInteger := true } : DecisionVariable)) ∈ (build catalog mb lb).vars :=
  fun _ hp => List.mem_map_of_mem _ hp

lemma build_var_names (catalog : Catalog) (mb lb : Int) :
    (build catalog mb lb).vars.map (fun kv => kv.2.name) =
      catalog.map (fun p => sanitize p.name) := by
  simp [build]

lemma build_constraint_names (catalog : Catalog) (mb lb : Int) :
    (build catalog mb lb).constraints.map Prod.fst =
      ["Machine_Time", "Labor_Time"] := by
  simp [build]

lemma build_machine_mem (catalog : Catalog) (mb lb : Int) :
    ("Machine_Time",
      ({ coeffs := catalog.map (fun p => (p.name, p.machineTime)), rhs := mb } :
        Constraint)) ∈ (build catalog mb lb).constraints := by
  simp [build]

lemma build_labor_mem (catalog : Catalog) (mb lb : Int) :
    ("Labor_Time",
      ({ coeffs := catalog.map (fun p => (p.name, p.laborTime)), rhs := lb } :
        Constraint)) ∈ (build catalog mb lb).constraints := by
  simp [build]

lemma build_objective_eval (catalog : Catalog) (mb lb : Int) (x : String → Int) :
    objValue (build catalog mb lb) x =
      (catalog.map (fun p => p.profit * x p.name)).sum := by
  simp [objValue, build, evalExpr_map_catalog]

/-- Overwriting the machine-budget RHS on a freshly built model gives exactly
the model built with the new machine budget: variables, objective, and the
labor constraint are untouched. -/
lemma setConstraintBound_machine (catalog : Catalog) (mb lb r : Int) :
    setConstraintBound (build catalog mb lb) "Machine_Time" r =
      some (build catalog r lb) := by
  simp [setConstraintBound, build, changeRHS]

/-- Overwriting the labor-budget RHS on a freshly built model gives exactly
the model built with the new labor budget. -/
lemma setConstraintBound_labor (catalog : Catalog) (mb lb r : Int) :
    setConstraintBound (build catalog mb lb) "Labor_Time" r =
      some (build catalog mb r) := by
  simp [setConstraintBound, build, changeRHS]

lemma setConstraintBound_absent (catalog : Catalog) (mb lb r : Int)
    (name : String) (hm : name ≠ "Machine_Time") (hl : name ≠ "Labor_Time") :
    setConstraintBound (build catalog mb lb) name r = none := by
  simp [setConstraintBound, build, hm, hl]

lemma pyDictInsert_of_not_mem (d : List (String × Int)) (k : String) (v : Int)
    (h : k ∉ d.map Prod.fst) : pyDictInsert d k v = d ++ [(k, v)] := by
  simp [pyDictInsert, h]

lemma foldl_pyDictInsert_of_nodup (l d : List (String × Int))
    (h : (d.map Prod.fst ++ l.map Prod.fst).Nodup) :
    l.foldl (fun acc kv => pyDictInsert acc kv.1 kv.2) d = d ++ l := by
  induction l generalizing d with
  | nil => simp
  | cons kv t ih =>
    have hsplit := (List.nodup_append.mp h)
    have hk : kv.1 ∉ d.map Prod.fst := fun hmem =>
      hsplit.2.2 hmem (by simp)
    rw [List.foldl_cons, pyDictInsert_of_not_mem d kv.1 kv.2 hk, ih]
    · simp
    · rw [List.map_append, List.append_assoc]
      simpa using h

/-- When product identities are distinct, the result-dict comprehension lists
the products in catalog order. -/
lemma pyDictOf_of_nodup (l : List (String × Int)) (h : (l.map Prod.fst).Nodup) :
    pyDictOf l = l := by
  have := foldl_pyDictInsert_of_nodup l [] (by simpa using h)
  simpa [pyDictOf] using this

/-- On a catalog with distinct names, none of them `"Total Profit"`, the
extraction produces one entry per product in catalog order followed by the
objective entry. -/
lemma extractResult_of_nodup (catalog : Catalog) (vals : String → Int)
    (obj : Int) (hnd : (catalog.map (fun p => p.name)).Nodup)
    (htp : "Total Profit" ∉ catalog.map (fun p => p.name)) :
    extractResult catalog vals obj =
      catalog.map (fun p => (p.name, vals p.name)) ++ [("Total Profit", obj)] := by
  have hkeys : (catalog.map (fun p => (p.name, vals p.name))).map Prod.fst =
      catalog.map (fun p => p.name) := by
    simp
  rw [extractResult, pyDictOf_of_nodup _ (by rw [hkeys]; exact hnd),
    pyDictInsert_of_not_mem _ _ _ (by rw [hkeys]; exact htp)]

/-- Optimality bound for the baseline instance: no feasible integer
assignment earns more than 2480 (certificate: 3×machine + 8×labor). -/
lemma juice240_bound : ∀ x, feasible juiceModel x → objValue juiceModel x ≤ 2480 := by
  intro x hx
  obtain ⟨hv, hc⟩ := hx
  simp [juiceModel, build, juiceData, max_machine_time, max_labor_time,
    evalExpr] at hv hc
  simp [objValue, juiceModel, build, juiceData, evalExpr]
  omega

/-- Uniqueness for the baseline instance: the only feasible assignment
reaching 2480 is (56, 36, 0). -/
lemma juice240_unique : ∀ x, feasible juiceModel x → objValue juiceModel x = 2480 →
    x "Apple Juice" = 56 ∧ x "Orange Juice" = 36 ∧ x "Mixed Fruit Juice" = 0 := by
  intro x hx he
  obtain ⟨hv, hc⟩ := hx
  simp [juiceModel, build, juiceData, max_machine_time, max_labor_time,
    evalExpr] at hv hc
  simp [objValue, juiceModel, build, juiceData, evalExpr] at he
  omega

/-- Optimality bound for the relaxed instance (machine budget 260): no
feasible integer assignment earns more than 2500 (certificate: 10×labor +
5×apple-cap). -/
lemma juice260_bound : ∀ x, feasible juiceModel260 x →
    objValue juiceModel260 x ≤ 2500 := by
  intro x hx
  obtain ⟨hv, hc⟩ := hx
  simp [juiceModel260, build, juiceData, max_labor_time, evalExpr] at hv hc
  simp [objValue, juiceModel260, build, juiceData, evalExpr]
  omega

lemma juice240_xStar_feasible : feasible juiceModel xStar240 := by decide

lemma juice240_xStar_value : objValue juiceModel xStar240 = 2480 := by decide

lemma juice260_xStar_feasible : feasible juiceModel260 xStar260 := by decide

lemma juice260_xStar_value : objValue juiceModel260 xStar260 = 2500 := by decide

lemma juice_zero_feasible : feasible juiceModel (fun _ => 0) := by decide

lemma juice260_zero_feasible : feasible juiceModel260 (fun _ => 0) := by decide

/-! ## Concrete scenario inputs used by counterexamples and witnesses -/

/-- The solver output of the recorded baseline run. -/
def outStar240 : SolverOutput :=
  { status := SolverStatus.Optimal, values := xStar240, objective := 2480 }

/-- The solver output of the recorded re-solve at machine budget 260. -/
def outStar260 : SolverOutput :=
  { status := SolverStatus.Optimal, values := xStar260, objective := 2500 }

/-- A solver run that terminates non-optimally. -/
def badSolve : Model → SolverOutput := fun _ =>
  { status := SolverStatus.Infeasible, values := fun _ => 0, objective := 0 }

/-- Two distinct products whose identities sanitize to the same variable
name. -/
def catalogAB : Catalog :=
  [{ name := "A B", profit := 1, machineTime := 1, laborTime := 1,
     maxUnits := 10 },
   { name := "A_B", profit := 2, machineTime := 1, laborTime := 1,
     maxUnits := 10 }]

/-- A catalog containing a product literally named `Total Profit`. -/
def tpCatalog : Catalog :=
  [{ name := "Total Profit", profit := 5, machineTime := 1, laborTime := 1,
     maxUnits := 10 },
   { name := "Orange", profit := 3, machineTime := 1, laborTime := 1,
     maxUnits := 10 }]

/-- Solved quantities for `tpCatalog`: 7 units of the product named
`Total Profit`, 4 of the other. -/
def tpVals : String → Int := fun n => if n = "Total Profit" then 7 else 4

/-! ## Claim theorems -/

/-- C1: on the worked catalog with machine budget 240 and labor budget 220,
any solve satisfying the Solver Adapter contract reports `Optimal`, and the
build-solve-extract pipeline returns Apple Juice = 56, Orange Juice = 36,
Mixed Fruit Juice = 0 with objective 2480; this assignment is feasible and no
feasible integer assignment earns more (here the optimum is even unique, so
the quantities are forced). -/
theorem end_to_end_scenario_240 (out : SolverOutput)
    (hs : OptimalSound juiceModel out) (hc : OptimalComplete juiceModel out) :
    out.status = SolverStatus.Optimal ∧
    out.values "Apple Juice" = 56 ∧
    out.values "Orange Juice" = 36 ∧
    out.values "Mixed Fruit Juice" = 0 ∧
    out.objective = 2480 ∧
    extractResult juiceData out.values out.objective =
      [("Apple Juice", 56), ("Orange Juice", 36), ("Mixed Fruit Juice", 0),
       ("Total Profit", 2480)] ∧
    feasible juiceModel out.values ∧
    (∀ x, feasible juiceModel x → objValue juiceModel x ≤ 2480) := by
  have hopt : out.status = SolverStatus.Optimal :=
    hc ⟨_, juice_zero_feasible⟩ ⟨2480, juice240_bound⟩
  obtain ⟨hf, hobj, hmax⟩ := hs hopt
  have h1 : (2480 : Int) ≤ out.objective :=
    juice240_xStar_value ▸ hmax xStar240 juice240_xStar_feasible
  have h2 : out.objective ≤ 2480 := hobj ▸ juice240_bound out.values hf
  have heq : out.objective = 2480 := le_antisymm h2 h1
  have hov : objValue juiceModel out.values = 2480 := by rw [← hobj, heq]
  obtain ⟨ha, hb, hm⟩ := juice240_unique out.values hf hov
  refine ⟨hopt, ha, hb, hm, heq, ?_, hf, juice240_bound⟩
  rw [extractResult_of_nodup juiceData out.values out.objective (by decide)
    (by decide)]
  simp [juiceData, ha, hb, hm, heq]

/-- Witness for C1: the recorded baseline output satisfies both halves of the
solver contract, and the theorem applied to it reproduces the recorded
status and objective. -/
theorem end_to_end_scenario_240_witness :
    OptimalSound juiceModel outStar240 ∧ OptimalComplete juiceModel outStar240 ∧
    outStar240.status = SolverStatus.Optimal ∧ outStar240.objective = 2480 :=
  have hs : OptimalSound juiceModel outStar240 := fun _ =>
    ⟨juice240_xStar_feasible, juice240_xStar_value.symm,
     fun x hx => juice240_bound x hx⟩
  have hc : OptimalComplete juiceModel outStar240 := fun _ _ => rfl
  ⟨hs, hc, (end_to_end_scenario_240 outStar240 hs hc).1,
   (end_to_end_scenario_240 outStar240 hs hc).2.2.2.2.1⟩

/-- C2: overwriting the `"Machine_Time"` constraint's RHS to 260 on the
already-built model yields exactly the model rebuilt with machine budget 260
(variables, objective and the labor constraint are not re-declared and are
unchanged); any contract-satisfying solve of the mutated model reports
`Optimal` with objective 2500; the recorded quantities (60, 32, 1) form a
feasible assignment attaining 2500, and no feasible integer assignment earns
more, so they are a true optimum of the relaxed integer program; with the
recorded values the extraction returns exactly the recorded dict. (The
relaxed optimum is not unique — the external solver's recorded tie-break is
taken as a hypothesis.) -/
theorem resolve_after_rhs_260 (out : SolverOutput)
    (hs : OptimalSound juiceModel260 out) (hc : OptimalComplete juiceModel260 out)
    (hrec : out.values "Apple Juice" = 60 ∧ out.values "Orange Juice" = 32 ∧
      out.values "Mixed Fruit Juice" = 1) :
    setConstraintBound juiceModel "Machine_Time" 260 = some juiceModel260 ∧
    juiceModel260.vars = juiceModel.vars ∧
    juiceModel260.objective = juiceModel.objective ∧
    out.status = SolverStatus.Optimal ∧
    out.objective = 2500 ∧
    extractResult juiceData out.values out.objective =
      [("Apple Juice", 60), ("Orange Juice", 32), ("Mixed Fruit Juice", 1),
       ("Total Profit", 2500)] ∧
    feasible juiceModel260 out.values ∧
    feasible juiceModel260 xStar260 ∧ objValue juiceModel260 xStar260 = 2500 ∧
    (∀ x, feasible juiceModel260 x → objValue juiceModel260 x ≤ 2500) := by
  have hopt : out.status = SolverStatus.Optimal :=
    hc ⟨_, juice260_zero_feasible⟩ ⟨2500, juice260_bound⟩
  obtain ⟨hf, hobj, hmax⟩ := hs hopt
  have h1 : (2500 : Int) ≤ out.objective :=
    juice260_xStar_value ▸ hmax xStar260 juice260_xStar_feasible
  have h2 : out.objective ≤ 2500 := hobj ▸ juice260_bound out.values hf
  have heq : out.objective = 2500 := le_antisymm h2 h1
  refine ⟨setConstraintBound_machine juiceData max_machine_time max_labor_time
    260, rfl, rfl, hopt, heq, ?_, hf, juice260_xStar_feasible,
    juice260_xStar_value, juice260_bound⟩
  rw [extractResult_of_nodup juiceData out.values out.objective (by decide)
    (by decide)]
  simp [juiceData, hrec.1, hrec.2.1, hrec.2.2, heq]

/-- Witness for C2: the recorded re-solve output satisfies the solver
contract and the recorded tie-break hypothesis, and the theorem applied to it
reproduces the recorded status and objective. -/
theorem resolve_after_rhs_260_witness :
    OptimalSound juiceModel260 outStar260 ∧
    OptimalComplete juiceModel260 outStar260 ∧
    outStar260.status = SolverStatus.Optimal ∧ outStar260.objective = 2500 :=
  have hs : OptimalSound juiceModel260 outStar260 := fun _ =>
    ⟨juice260_xStar_feasible, juice260_xStar_value.symm,
     fun x hx => juice260_bound x hx⟩
  have hc : OptimalComplete juiceModel260 outStar260 := fun _ _ => rfl
  ⟨hs, hc,
   (resolve_after_rhs_260 outStar260 hs hc (by decide)).2.2.2.1,
   (resolve_after_rhs_260 outStar260 hs hc (by decide)).2.2.2.2.1⟩

/-- C3: for every non-empty catalog with non-negative caps and non-negative
budgets, building succeeds (the builder is total) and yields exactly one
integer decision variable per product bounded `[0, maxUnits]`, the
profit-weighted objective over exactly the catalog's products, and exactly
the two constraints `"Machine_Time" ≤ machineBudget` and
`"Labor_Time" ≤ laborBudget` with the resource-weighted sums on the left. -/
theorem build_wellformed (catalog : Catalog) (mb lb : Int)
    (_hne : catalog ≠ []) (_hcaps : ∀ p ∈ catalog, 0 ≤ p.maxUnits)
    (_hmb : 0 ≤ mb) (_hlb : 0 ≤ lb) :
    (build catalog mb lb).vars.length = catalog.length ∧
    (∀ p ∈ catalog,
      (p.name,
        ({ name := sanitize p.name, lowBound := 0, upBound := p.maxUnits,
           isInteger := true } : DecisionVariable)) ∈
        (build catalog mb lb).vars) ∧
    (∀ x, objValue (build catalog mb lb) x =
      (catalog.map (fun p => p.profit * x p.name)).sum) ∧
    (build catalog mb lb).constraints.map Prod.fst =
      ["Machine_Time", "Labor_Time"] ∧
    (∃ c, ("Machine_Time", c) ∈ (build catalog mb lb).constraints ∧
      c.rhs = mb ∧
      ∀ x, evalExpr c.coeffs x =
        (catalog.map (fun p => p.machineTime * x p.name)).sum) ∧
    (∃ c, ("Labor_Time", c) ∈ (build catalog mb lb).constraints ∧
      c.rhs = lb ∧
      ∀ x, evalExpr c.coeffs x =
        (catalog.map (fun p => p.laborTime * x p.name)).sum) :=
  ⟨build_vars_len catalog mb lb, build_vars_mem catalog mb lb,
   fun x => build_objective_eval catalog mb lb x,
   build_constraint_names catalog mb lb,
   ⟨_, build_machine_mem catalog mb lb, rfl,
    fun x => evalExpr_map_catalog catalog (fun p => p.machineTime) x⟩,
   ⟨_, build_labor_mem catalog mb lb, rfl,
    fun x => evalExpr_map_catalog catalog (fun p => p.laborTime) x⟩⟩

/-- Witness for C3: the worked catalog with budgets 240 and 220 satisfies
every hypothesis, and the built model has one variable per product. -/
theorem build_wellformed_witness :
    juiceData ≠ [] ∧ (0 : Int) ≤ 240 ∧
    (build juiceData 240 220).vars.length = juiceData.length :=
  ⟨by decide, by decide,
   (build_wellformed juiceData 240 220 (by decide) (by decide) (by decide)
     (by decide)).1⟩

/-- C4 counterexample: the model-definition cells perform no input
validation and never raise a ValidationError. On a catalog with a negative
max-units cap and negative budgets they return a Model keeping the invalid
record and storing the negative cap and budgets verbatim; on an empty
catalog with non-negative budgets they return a Model after silently
discarding both True bool comparisons, so it has no constraints at all; and
on an empty catalog with a negative budget they fail with PuLP's generic
TypeError about a False constraint, not a ValidationError. -/
theorem build_no_validation_cex :
    buildCells
      [{ name := "P", profit := 1, machineTime := 1, laborTime := 1,
         maxUnits := -5 }] (-2) (-3) =
      BuildOutcome.model
        { vars := [("P",
            { name := "P", lowBound := 0, upBound := -5, isInteger := true })],
          objective := [("P", 1)],
          constraints :=
            [("Machine_Time", { coeffs := [("P", 1)], rhs := -2 }),
             ("Labor_Time", { coeffs := [("P", 1)], rhs := -3 })] } ∧
    buildCells [] 1 1 =
      BuildOutcome.model { vars := [], objective := [], constraints := [] } ∧
    buildCells [] (-1) (-1) = BuildOutcome.typeError := by decide

/-- C4 amended: the Model Builder performs no validation of its own and
never raises a ValidationError. On every non-empty catalog it returns a
Model containing every record's variable with the cap stored as the upper
bound unchanged — negative caps and budgets included, nothing clamped,
dropped, or rejected — and the two constraints with the budgets stored as
RHS verbatim. On an empty catalog the constraint cells compare the int 0
with each budget: with both budgets non-negative the True bools are silently
discarded and a Model with no constraints is returned; with a negative
budget PuLP's `__iadd__` raises its generic TypeError. -/
theorem build_no_validation (catalog : Catalog) (mb lb : Int) :
    (catalog ≠ [] →
      buildCells catalog mb lb = BuildOutcome.model (build catalog mb lb) ∧
      (build catalog mb lb).vars.length = catalog.length ∧
      (∀ p ∈ catalog,
        (p.name,
          ({ name := sanitize p.name, lowBound := 0, upBound := p.maxUnits,
             isInteger := true } : DecisionVariable)) ∈
          (build catalog mb lb).vars) ∧
      (∃ c, ("Machine_Time", c) ∈ (build catalog mb lb).constraints ∧
        c.rhs = mb) ∧
      (∃ c, ("Labor_Time", c) ∈ (build catalog mb lb).constraints ∧
        c.rhs = lb)) ∧
    (catalog = [] → 0 ≤ mb → 0 ≤ lb →
      buildCells catalog mb lb =
        BuildOutcome.model { vars := [], objective := [], constraints := [] }) ∧
    (catalog = [] → mb < 0 ∨ lb < 0 →
      buildCells catalog mb lb = BuildOutcome.typeError) := by
  refine ⟨fun hne => ?_, fun he hmb hlb => ?_, fun he hneg => ?_⟩
  · exact ⟨by simp [buildCells, hne], build_vars_len catalog mb lb,
      build_vars_mem catalog mb lb,
      ⟨_, build_machine_mem catalog mb lb, rfl⟩,
      ⟨_, build_labor_mem catalog mb lb, rfl⟩⟩
  · subst he; simp [buildCells, hmb, hlb]
  · subst he
    rcases hneg with h | h
    · simp [buildCells, not_le.mpr h]
    · by_cases hmb : 0 ≤ mb
      · simp [buildCells, hmb, not_le.mpr h]
      · simp [buildCells, hmb]

/-- Witness for C4's amended theorem: all three regimes at concrete inputs —
the worked (non-empty) catalog with the budgets verbatim, the empty catalog
with non-negative budgets yielding a constraint-free Model, and the empty
catalog with a negative budget failing with the TypeError. -/
theorem build_no_validation_witness :
    juiceData ≠ [] ∧
    buildCells juiceData 240 220 = BuildOutcome.model (build juiceData 240 220) ∧
    buildCells [] 1 1 =
      BuildOutcome.model { vars := [], objective := [], constraints := [] } ∧
    buildCells [] (-1) 1 = BuildOutcome.typeError :=
  ⟨by decide,
   ((build_no_validation juiceData 240 220).1 (by decide)).1,
   (build_no_validation [] 1 1).2.1 rfl (by decide) (by decide),
   (build_no_validation [] (-1) 1).2.2 rfl (Or.inl (by decide))⟩

/-- C5 counterexample: for the distinct products `"A B"` and `"A_B"`, whose
identities sanitize to the same variable name, the builder does not fail: it
returns a Model holding two decision variables that share the sanitized
identity `"A_B"`, contrary to the claimed NameCollision failure. -/
theorem name_collision_cex :
    "A B" ≠ "A_B" ∧
    sanitize "A B" = sanitize "A_B" ∧
    (build catalogAB 5 5).vars.length = 2 ∧
    (build catalogAB 5 5).vars.map (fun kv => kv.2.name) = ["A_B", "A_B"] := by
  decide

/-- C5 amended: the builder performs no collision check: for every catalog it
returns a Model keeping every product and assigning each variable the
sanitized identity, so products whose identities sanitize alike yield
distinct variables with the same identity rather than an error. -/
theorem sanitize_no_collision_check (catalog : Catalog) (mb lb : Int) :
    (build catalog mb lb).vars.length = catalog.length ∧
    (build catalog mb lb).vars.map (fun kv => kv.2.name) =
      catalog.map (fun p => sanitize p.name) :=
  ⟨build_vars_len catalog mb lb, build_var_names catalog mb lb⟩

/-- C6: for every built model, looking a name other than `"Machine_Time"`
and `"Labor_Time"` up in the constraint mapping fails (the `KeyError` of the
dict access, modelled as `none`, raised before any mutation touches the
model), while both existing names mutate successfully. -/
theorem setConstraintBound_notFound (catalog : Catalog) (mb lb r : Int)
    (name : String) (hm : name ≠ "Machine_Time") (hl : name ≠ "Labor_Time") :
    setConstraintBound (build catalog mb lb) name r = none ∧
    (∃ m, setConstraintBound (build catalog mb lb) "Machine_Time" r = some m) ∧
    (∃ m, setConstraintBound (build catalog mb lb) "Labor_Time" r = some m) :=
  ⟨setConstraintBound_absent catalog mb lb r name hm hl,
   ⟨_, setConstraintBound_machine catalog mb lb r⟩,
   ⟨_, setConstraintBound_labor catalog mb lb r⟩⟩

/-- Witness for C6: the unknown name `"Budget"` on the worked model. -/
theorem setConstraintBound_notFound_witness :
    "Budget" ≠ "Machine_Time" ∧ "Budget" ≠ "Labor_Time" ∧
    setConstraintBound (build juiceData 240 220) "Budget" 260 = none :=
  ⟨by decide, by decide,
   (setConstraintBound_notFound juiceData 240 220 260 "Budget" (by decide)
     (by decide)).1⟩

/-- C7 counterexample: the extraction cell never branches on the solver
status. After a solve that terminates `Infeasible` (not `Optimal`), the
`results` dict still contains one quantity entry per product plus the
`'Total Profit'` entry — and contains no status at all — contrary to the
claim that a non-Optimal solve yields a status-only result. -/
theorem extract_ignores_status_cex :
    (badSolve (initSession juiceData 240 220).model).status ≠
      SolverStatus.Optimal ∧
    (runSolveCell badSolve (initSession juiceData 240 220)).results =
      some [("Apple Juice", 0), ("Orange Juice", 0), ("Mixed Fruit Juice", 0),
            ("Total Profit", 0)] := by decide

/-- C7 amended: extraction is unconditional on the solver status. For every
solver outcome — non-Optimal included — the solve-and-extract cell stores the
full per-product quantity mapping followed by the `'Total Profit'` entry,
and the status never appears in the result; a non-Optimal outcome is
signalled only by the separately printed status string, not by the shape of
the result. -/
theorem extract_unconditional (solve : Model → SolverOutput) (s : Session)
    (hnd : (s.data.map (fun p => p.name)).Nodup)
    (htp : "Total Profit" ∉ s.data.map (fun p => p.name)) :
    (runSolveCell solve s).results =
      some (s.data.map (fun p => (p.name, (solve s.model).values p.name)) ++
        [("Total Profit", (solve s.model).objective)]) := by
  simp [runSolveCell, extractResult_of_nodup s.data _ _ hnd htp]

/-- Witness for C7's amended theorem: the infeasible run on the worked
catalog still produces the full mapping. -/
theorem extract_unconditional_witness :
    (juiceData.map (fun p => p.name)).Nodup ∧
    (runSolveCell badSolve (initSession juiceData 240 220)).results =
      some (juiceData.map (fun p =>
          (p.name, (badSolve (initSession juiceData 240 220).model).values
            p.name)) ++
        [("Total Profit",
          (badSolve (initSession juiceData 240 220).model).objective)]) :=
  ⟨by decide,
   extract_unconditional badSolve (initSession juiceData 240 220) (by decide)
     (by decide)⟩

/-- C8: on every built model, overwriting an existing constraint's RHS (the
built model's two constraint names are `"Machine_Time"` and `"Labor_Time"`)
yields exactly the model rebuilt with only that budget scalar replaced: the
decision variables (bounds and integrality), the objective, the mutated
constraint's left-hand coefficients, and the other constraint in its
entirety are all identical before and after. -/
theorem changeRHS_frame (catalog : Catalog) (mb lb r : Int) :
    setConstraintBound (build catalog mb lb) "Machine_Time" r =
      some (build catalog r lb) ∧
    setConstraintBound (build catalog mb lb) "Labor_Time" r =
      some (build catalog mb r) ∧
    (build catalog r lb).vars = (build catalog mb lb).vars ∧
    (build catalog r lb).objective = (build catalog mb lb).objective ∧
    (build catalog mb r).vars = (build catalog mb lb).vars ∧
    (build catalog mb r).objective = (build catalog mb lb).objective ∧
    ("Machine_Time",
      ({ coeffs := catalog.map (fun p => (p.name, p.machineTime)), rhs := r } :
        Constraint)) ∈ (build catalog r lb).constraints ∧
    ("Labor_Time",
      ({ coeffs := catalog.map (fun p => (p.name, p.laborTime)), rhs := lb } :
        Constraint)) ∈ (build catalog r lb).constraints ∧
    ("Machine_Time",
      ({ coeffs := catalog.map (fun p => (p.name, p.machineTime)), rhs := mb } :
        Constraint)) ∈ (build catalog mb r).constraints ∧
    ("Labor_Time",
      ({ coeffs := catalog.map (fun p => (p.name, p.laborTime)), rhs := r } :
        Constraint)) ∈ (build catalog mb r).constraints :=
  ⟨setConstraintBound_machine catalog mb lb r,
   setConstraintBound_labor catalog mb lb r, rfl, rfl, rfl, rfl,
   build_machine_mem catalog r lb, build_labor_mem catalog r lb,
   build_machine_mem catalog mb r, build_labor_mem catalog mb r⟩

/-- C9: running solve-extract, then the sensitivity cell (RHS mutation plus
re-solve and second extraction) leaves the first `results` dict exactly as
the first extraction produced it; the second solve writes a fresh dict into
the separate `sensitivity_results` binding. -/
theorem second_solve_preserves_first (solve : Model → SolverOutput)
    (catalog : Catalog) (mb lb newRhs : Int) :
    (sensitivityCell solve newRhs
      (runSolveCell solve (initSession catalog mb lb))).results =
      (runSolveCell solve (initSession catalog mb lb)).results ∧
    (runSolveCell solve (initSession catalog mb lb)).results =
      some (extractResult catalog (solve (build catalog mb lb)).values
        (solve (build catalog mb lb)).objective) ∧
    (sensitivityCell solve newRhs
      (runSolveCell solve (initSession catalog mb lb))).sensitivity_results =
      some (extractResult catalog (solve (build catalog newRhs lb)).values
        (solve (build catalog newRhs lb)).objective) := by
  have h := setConstraintBound_machine catalog mb lb newRhs
  refine ⟨?_, rfl, ?_⟩ <;>
    simp [sensitivityCell, runSolveCell, initSession, h]

/-- C10: the extraction stores the objective under the key `'Total Profit'`
in the same dict as the product quantities — one entry per product in
catalog order, then the objective entry — so for a catalog containing a
product literally named `'Total Profit'`, the dict assignment overwrites
that product's solved quantity (7 in the instance below) with the objective
value (99), and the quantity is lost from the result. -/
theorem total_profit_key_overwrite :
    (∀ (catalog : Catalog) (vals : String → Int) (obj : Int),
        (catalog.map (fun p => p.name)).Nodup →
        "Total Profit" ∉ catalog.map (fun p => p.name) →
        extractResult catalog vals obj =
          catalog.map (fun p => (p.name, vals p.name)) ++
            [("Total Profit", obj)]) ∧
    tpVals "Total Profit" = 7 ∧
    extractResult tpCatalog tpVals 99 = [("Total Profit", 99), ("Orange", 4)] ∧
    ("Total Profit", (7 : Int)) ∉ extractResult tpCatalog tpVals 99 :=
  ⟨fun catalog vals obj hnd htp =>
    extractResult_of_nodup catalog vals obj hnd htp,
   by decide, by decide, by decide⟩

/-- Witness for C10's quantified part: the worked catalog has distinct names
none of which is `'Total Profit'`, and its extraction lists the products in
catalog order followed by the objective entry. -/
theorem total_profit_key_overwrite_witness :
    (juiceData.map (fun p => p.name)).Nodup ∧
    extractResult juiceData xStar240 2480 =
      juiceData.map (fun p => (p.name, xStar240 p.name)) ++
        [("Total Profit", 2480)] :=
  ⟨by decide,
   total_profit_key_overwrite.1 juiceData xStar240 2480 (by decide)
     (by decide)⟩
